import Mathlib

/-!
Shallow embedding of `pkg/ebpf/bpf/snoop.c` (the eBPF capture core of the
snoop tracer) together with proofs of its specified properties.

Modelling conventions:
* machine integers are `Nat` with explicit truncation `% 2 ^ w` wherever the
  source stores a wider value into a `w`-bit field;
* the BPF maps (`traced_cgroups`, `heap`, `events`, `dropped_events`) are one
  explicit state record threaded through the handlers;
* readable user memory is a partial map from addresses to bytes
  (`none` = faulting address);
* every handler is a pure function from the ambient kernel context, the
  tracepoint context and the map state to the new map state plus its `int`
  return value.
-/

namespace Snoop

/-- `MAX_PATH_LEN` from snoop.c: capacity in bytes of the event path field. -/
def MAX_PATH_LEN : Nat := 256

/-- `struct event`: the record sent to user space.  `cgroup_id` is a u64,
`pid` and `syscall_nr` are u32 (so stores into them truncate), and `path` is
the byte sequence actually written into the 256-byte field by the bounded
string read. -/
structure event where
  cgroup_id : Nat
  pid : Nat
  syscall_nr : Nat
  path : List Nat
  deriving DecidableEq, Repr

/-- Ambient kernel-side inputs of one handler invocation: the current task's
default-cgroup identifier (`BPF_CORE_READ(task, cgroups, dfl_cgrp, kn, id)`),
the combined pid/tgid word returned by `bpf_get_current_pid_tgid()`, and the
readable user memory, a partial map from addresses to bytes where `none`
models a faulting (unreadable) address. -/
structure KernelCtx where
  task_cgroup_id : Nat
  pid_tgid : Nat
  mem : Nat → Option Nat

/-- `struct trace_event_raw_sys_enter`: the syscall entry-point identifier
`id` and the raw u64 syscall argument words `args`. -/
structure trace_event_raw_sys_enter where
  id : Nat
  args : List Nat

/-- The BPF maps of snoop.c gathered into one state:
* `traced_cgroups` — the hash set of traced cgroup ids (the map's u8 values
  are dummies, only key presence is ever tested), modelled as the list of
  present keys;
* `heap` — the current CPU's single scratch slot of the per-CPU array;
  `none` models a failed slot lookup;
* `ringbuf` / `ringbuf_free` — the `events` ring buffer: records delivered so
  far (oldest first) and the remaining capacity counted in whole records;
* `dropped` — the value of the u64 counter cell of the one-entry
  `dropped_events` array.  BPF array maps are preallocated, so the lookup of
  index 0 in `submit_event` always succeeds and the cell is modelled as
  always present. -/
structure BpfState where
  traced_cgroups : List Nat
  heap : Option event
  ringbuf : List event
  ringbuf_free : Nat
  dropped : Nat
  deriving DecidableEq

/-- `should_trace` from snoop.c: read the current task's default cgroup id
and look it up in `traced_cgroups`; trace iff the key is present (so an empty
map traces nothing). -/
def should_trace (k : KernelCtx) (s : BpfState) : Bool :=
  decide (k.task_cgroup_id ∈ s.traced_cgroups)

/-- `bpf_ringbuf_output` on the `events` map: if a record slot is free the
whole fixed-size record is copied in and 0 is returned; otherwise the buffer
is unchanged and a nonzero error is returned. -/
def bpf_ringbuf_output (s : BpfState) (e : event) : BpfState × Int :=
  if 0 < s.ringbuf_free then
    ({ s with ringbuf := s.ringbuf ++ [e], ringbuf_free := s.ringbuf_free - 1 }, 0)
  else
    (s, -1)

/-- `submit_event` from snoop.c: output the record to the ring buffer; if
that fails, atomically add 1 to the u64 drop counter (wrapping at `2 ^ 64`). -/
def submit_event (s : BpfState) (e : event) : BpfState :=
  let r := bpf_ringbuf_output s e
  if r.2 ≠ 0 then { r.1 with dropped := (r.1.dropped + 1) % 2 ^ 64 } else r.1

/-- Byte-copy loop of the bounded user string read: copy at most `fuel`
content bytes, stopping at (and replacing by) the terminating NUL; an
unreadable byte ends the copy early exactly as if the string ended there
(truncation, never abort).  The written bytes always end with one NUL. -/
def read_str_go (mem : Nat → Option Nat) : Nat → Nat → List Nat
  | _, 0 => [0]
  | addr, fuel + 1 =>
    match mem addr with
    | none => [0]
    | some b => if b = 0 then [0] else b :: read_str_go mem (addr + 1) fuel

/-- `bpf_probe_read_user_str(dst, size, ptr)`: read a NUL-terminated string
from user memory into a `size`-byte buffer — at most `size - 1` content bytes
followed by a NUL.  Modelled from the documented semantics of this kernel
helper, which is external to the repository; the result is the byte sequence
written into the destination. -/
def bpf_probe_read_user_str (mem : Nat → Option Nat) (addr size : Nat) : List Nat :=
  read_str_go mem addr (size - 1)

/-- The type of a modelled tracepoint handler. -/
abbrev Handler : Type :=
  KernelCtx → trace_event_raw_sys_enter → BpfState → BpfState × Int

/-- `trace_openat` — `tracepoint/syscalls/sys_enter_openat`; the pathname is
syscall argument 1. -/
def trace_openat : Handler := fun k ctx s =>
  if !should_trace k s then (s, 0)
  else
    match s.heap with
    | none => (s, 0)
    | some _ =>
      let e : event :=
        { cgroup_id := k.task_cgroup_id,
          pid := k.pid_tgid >>> 32 % 2 ^ 32,
          syscall_nr := ctx.id % 2 ^ 32,
          path := bpf_probe_read_user_str k.mem (ctx.args.getD 1 0) MAX_PATH_LEN }
      (submit_event { s with heap := some e } e, 0)

/-- `trace_execve` — `tracepoint/syscalls/sys_enter_execve`; the pathname is
syscall argument 0. -/
def trace_execve : Handler := fun k ctx s =>
  if !should_trace k s then (s, 0)
  else
    match s.heap with
    | none => (s, 0)
    | some _ =>
      let e : event :=
        { cgroup_id := k.task_cgroup_id,
          pid := k.pid_tgid >>> 32 % 2 ^ 32,
          syscall_nr := ctx.id % 2 ^ 32,
          path := bpf_probe_read_user_str k.mem (ctx.args.getD 0 0) MAX_PATH_LEN }
      (submit_event { s with heap := some e } e, 0)

/-- `trace_execveat` — `tracepoint/syscalls/sys_enter_execveat`; the pathname
is syscall argument 1. -/
def trace_execveat : Handler := fun k ctx s =>
  if !should_trace k s then (s, 0)
  else
    match s.heap with
    | none => (s, 0)
    | some _ =>
      let e : event :=
        { cgroup_id := k.task_cgroup_id,
          pid := k.pid_tgid >>> 32 % 2 ^ 32,
          syscall_nr := ctx.id % 2 ^ 32,
          path := bpf_probe_read_user_str k.mem (ctx.args.getD 1 0) MAX_PATH_LEN }
      (submit_event { s with heap := some e } e, 0)

/-- `trace_openat2` — `tracepoint/syscalls/sys_enter_openat2`; the pathname
is syscall argument 1. -/
def trace_openat2 : Handler := fun k ctx s =>
  if !should_trace k s then (s, 0)
  else
    match s.heap with
    | none => (s, 0)
    | some _ =>
      let e : event :=
        { cgroup_id := k.task_cgroup_id,
          pid := k.pid_tgid >>> 32 % 2 ^ 32,
          syscall_nr := ctx.id % 2 ^ 32,
          path := bpf_probe_read_user_str k.mem (ctx.args.getD 1 0) MAX_PATH_LEN }
      (submit_event { s with heap := some e } e, 0)

/-- `trace_statx` — `tracepoint/syscalls/sys_enter_statx`; the pathname is
syscall argument 1. -/
def trace_statx : Handler := fun k ctx s =>
  if !should_trace k s then (s, 0)
  else
    match s.heap with
    | none => (s, 0)
    | some _ =>
      let e : event :=
        { cgroup_id := k.task_cgroup_id,
          pid := k.pid_tgid >>> 32 % 2 ^ 32,
          syscall_nr := ctx.id % 2 ^ 32,
          path := bpf_probe_read_user_str k.mem (ctx.args.getD 1 0) MAX_PATH_LEN }
      (submit_event { s with heap := some e } e, 0)

/-- `trace_newfstatat` — `tracepoint/syscalls/sys_enter_newfstatat`; the
pathname is syscall argument 1. -/
def trace_newfstatat : Handler := fun k ctx s =>
  if !should_trace k s then (s, 0)
  else
    match s.heap with
    | none => (s, 0)
    | some _ =>
      let e : event :=
        { cgroup_id := k.task_cgroup_id,
          pid := k.pid_tgid >>> 32 % 2 ^ 32,
          syscall_nr := ctx.id % 2 ^ 32,
          path := bpf_probe_read_user_str k.mem (ctx.args.getD 1 0) MAX_PATH_LEN }
      (submit_event { s with heap := some e } e, 0)

/-- `trace_faccessat` — `tracepoint/syscalls/sys_enter_faccessat`; the
pathname is syscall argument 1. -/
def trace_faccessat : Handler := fun k ctx s =>
  if !should_trace k s then (s, 0)
  else
    match s.heap with
    | none => (s, 0)
    | some _ =>
      let e : event :=
        { cgroup_id := k.task_cgroup_id,
          pid := k.pid_tgid >>> 32 % 2 ^ 32,
          syscall_nr := ctx.id % 2 ^ 32,
          path := bpf_probe_read_user_str k.mem (ctx.args.getD 1 0) MAX_PATH_LEN }
      (submit_event { s with heap := some e } e, 0)

/-- `trace_faccessat2` — `tracepoint/syscalls/sys_enter_faccessat2`; the
pathname is syscall argument 1. -/
def trace_faccessat2 : Handler := fun k ctx s =>
  if !should_trace k s then (s, 0)
  else
    match s.heap with
    | none => (s, 0)
    | some _ =>
      let e : event :=
        { cgroup_id := k.task_cgroup_id,
          pid := k.pid_tgid >>> 32 % 2 ^ 32,
          syscall_nr := ctx.id % 2 ^ 32,
          path := bpf_probe_read_user_str k.mem (ctx.args.getD 1 0) MAX_PATH_LEN }
      (submit_event { s with heap := some e } e, 0)

/-- `trace_readlinkat` — `tracepoint/syscalls/sys_enter_readlinkat`; the
pathname is syscall argument 1. -/
def trace_readlinkat : Handler := fun k ctx s =>
  if !should_trace k s then (s, 0)
  else
    match s.heap with
    | none => (s, 0)
    | some _ =>
      let e : event :=
        { cgroup_id := k.task_cgroup_id,
          pid := k.pid_tgid >>> 32 % 2 ^ 32,
          syscall_nr := ctx.id % 2 ^ 32,
          path := bpf_probe_read_user_str k.mem (ctx.args.getD 1 0) MAX_PATH_LEN }
      (submit_event { s with heap := some e } e, 0)

/-- The common shape every handler instantiates, parameterized by the index
of the pathname argument (every handler body above is definitionally this
function applied to its argument index). -/
def trace_path_common (argIdx : Nat) : Handler := fun k ctx s =>
  if !should_trace k s then (s, 0)
  else
    match s.heap with
    | none => (s, 0)
    | some _ =>
      let e : event :=
        { cgroup_id := k.task_cgroup_id,
          pid := k.pid_tgid >>> 32 % 2 ^ 32,
          syscall_nr := ctx.id % 2 ^ 32,
          path := bpf_probe_read_user_str k.mem (ctx.args.getD argIdx 0) MAX_PATH_LEN }
      (submit_event { s with heap := some e } e, 0)

/-- The nine tracepoint programs of snoop.c, each paired with the index of
the syscall argument it reads the pathname from. -/
def monitoredHandlers : List (Handler × Nat) :=
  [(trace_openat, 1), (trace_execve, 0), (trace_execveat, 1), (trace_openat2, 1),
   (trace_statx, 1), (trace_newfstatat, 1), (trace_faccessat, 1),
   (trace_faccessat2, 1), (trace_readlinkat, 1)]

/-- The record a handler with pathname argument `argIdx` builds in the
scratch slot before submitting. -/
def capturedEvent (argIdx : Nat) (k : KernelCtx) (ctx : trace_event_raw_sys_enter) : event :=
  { cgroup_id := k.task_cgroup_id,
    pid := k.pid_tgid >>> 32 % 2 ^ 32,
    syscall_nr := ctx.id % 2 ^ 32,
    path := bpf_probe_read_user_str k.mem (ctx.args.getD argIdx 0) MAX_PATH_LEN }

/-- `strAt mem addr bs`: user memory holds at `addr` a NUL-terminated string
whose content bytes are `bs` — every content byte is readable and nonzero and
the byte right after them is a readable NUL. -/
def strAt (mem : Nat → Option Nat) (addr : Nat) (bs : List Nat) : Prop :=
  (∀ i < bs.length, mem (addr + i) = bs.get? i ∧ bs.get? i ≠ some 0) ∧
  mem (addr + bs.length) = some 0

instance (mem : Nat → Option Nat) (addr : Nat) (bs : List Nat) :
    Decidable (strAt mem addr bs) := by
  unfold strAt
  infer_instance

/-- A sequence of transport submissions, in order. -/
def submit_all (s : BpfState) (es : List event) : BpfState :=
  es.foldl submit_event s

/-- A blank record, the load-time content of the scratch slot. -/
def evDefault : event :=
  { cgroup_id := 0, pid := 0, syscall_nr := 0, path := [0] }

/-- Concrete kernel context for witnesses: a task in cgroup 100, tgid 7 /
tid 9, with the bytes of the 4-byte path ABCD at user address 0. -/
def k100 : KernelCtx :=
  { task_cgroup_id := 100,
    pid_tgid := 7 * 2 ^ 32 + 9,
    mem := fun a => if a < 4 then some (a + 65) else if a = 4 then some 0 else none }

/-- Concrete tracepoint context for witnesses: syscall id 257, pathname
pointer (argument 1) = 0. -/
def ctx0 : trace_event_raw_sys_enter :=
  { id := 257, args := [3, 0, 0, 0, 0, 0] }

/-- Concrete state for witnesses: empty filter table. -/
def sEmpty : BpfState :=
  { traced_cgroups := [], heap := some evDefault, ringbuf := [], ringbuf_free := 8,
    dropped := 0 }

/-- Concrete state for witnesses: cgroup 100 traced, scratch available,
channel with free capacity. -/
def sTraced : BpfState :=
  { traced_cgroups := [100], heap := some evDefault, ringbuf := [], ringbuf_free := 8,
    dropped := 0 }

/-- Concrete state for witnesses: cgroup 100 traced but the scratch-slot
lookup fails. -/
def sNoHeap : BpfState :=
  { traced_cgroups := [100], heap := none, ringbuf := [], ringbuf_free := 8,
    dropped := 0 }

/-- Concrete state for witnesses: saturated channel (no free capacity). -/
def sFull : BpfState :=
  { traced_cgroups := [100], heap := some evDefault, ringbuf := [], ringbuf_free := 0,
    dropped := 0 }

/-- Concrete state for witnesses: channel with capacity for one record. -/
def sOneSlot : BpfState :=
  { traced_cgroups := [], heap := none, ringbuf := [], ringbuf_free := 1,
    dropped := 0 }

/-- A stale record left in the scratch slot by some earlier invocation. -/
def evStale : event :=
  { cgroup_id := 42, pid := 999, syscall_nr := 59, path := [47, 116, 109, 112, 0] }

/-- The burst submitted by the C4 witness. -/
def es3 : List event := [evDefault, evDefault, evDefault]

/-- `emitsPathFrom h argIdx`: under filter pass, available scratch and free
channel capacity, handler `h` appends exactly one record whose path was read
from the user pointer in syscall argument `argIdx` and whose `syscall_nr` is
the entry-point identifier carried by the invocation context. -/
def emitsPathFrom (h : Handler) (argIdx : Nat) : Prop :=
  ∀ (k : KernelCtx) (ctx : trace_event_raw_sys_enter) (s : BpfState) (e0 : event),
    should_trace k s = true → s.heap = some e0 → 0 < s.ringbuf_free →
    (h k ctx s).1.ringbuf = s.ringbuf ++
      [{ cgroup_id := k.task_cgroup_id,
         pid := k.pid_tgid >>> 32 % 2 ^ 32,
         syscall_nr := ctx.id % 2 ^ 32,
         path := bpf_probe_read_user_str k.mem (ctx.args.getD argIdx 0) MAX_PATH_LEN }]

/-- Second state for the C10 witness: same filter, scratch availability and
free capacity as `sTraced`, but different channel history, scratch content
and drop count. -/
def sOther : BpfState :=
  { traced_cgroups := [100], heap := some evStale, ringbuf := [evDefault],
    ringbuf_free := 8, dropped := 5 }

/-- Each monitored handler is (definitionally) the common shape at its
pathname-argument index. -/
theorem handler_eq_common : ∀ hp ∈ monitoredHandlers, hp.1 = trace_path_common hp.2 := by
  intro hp h
  simp only [monitoredHandlers, List.mem_cons, List.not_mem_nil, or_false] at h
  rcases h with rfl | rfl | rfl | rfl | rfl | rfl | rfl | rfl | rfl <;> rfl

/-- `should_trace` decides membership of the task's cgroup id in the filter. -/
theorem should_trace_iff (k : KernelCtx) (s : BpfState) :
    should_trace k s = true ↔ k.task_cgroup_id ∈ s.traced_cgroups := by
  simp [should_trace]

/-- Filter-miss path: the handler returns 0 and the state is untouched. -/
theorem trace_path_common_reject (argIdx : Nat) (k : KernelCtx)
    (ctx : trace_event_raw_sys_enter) (s : BpfState)
    (h : should_trace k s = false) :
    trace_path_common argIdx k ctx s = (s, 0) := by
  simp [trace_path_common, h]

/-- Scratch-unavailable path: the handler returns 0 and the state is
untouched. -/
theorem trace_path_common_noheap (argIdx : Nat) (k : KernelCtx)
    (ctx : trace_event_raw_sys_enter) (s : BpfState)
    (h : s.heap = none) :
    trace_path_common argIdx k ctx s = (s, 0) := by
  simp [trace_path_common, h]

/-- Normal path with free channel capacity: the captured record is appended
whole to the ring buffer, one capacity slot is consumed, the scratch slot
holds the record, and nothing else changes. -/
theorem trace_path_common_emit (argIdx : Nat) (k : KernelCtx)
    (ctx : trace_event_raw_sys_enter) (s : BpfState) (e0 : event)
    (h1 : should_trace k s = true) (h2 : s.heap = some e0)
    (h3 : 0 < s.ringbuf_free) :
    trace_path_common argIdx k ctx s =
      ({ s with heap := some (capturedEvent argIdx k ctx),
                ringbuf := s.ringbuf ++ [capturedEvent argIdx k ctx],
                ringbuf_free := s.ringbuf_free - 1 }, 0) := by
  simp [trace_path_common, h1, h2, submit_event, bpf_ringbuf_output, h3, capturedEvent]

/-- Normal path with a saturated channel: the drop counter is bumped by one
(mod `2 ^ 64`), the ring buffer is unchanged, the scratch slot holds the
record, and the handler still returns 0. -/
theorem trace_path_common_full (argIdx : Nat) (k : KernelCtx)
    (ctx : trace_event_raw_sys_enter) (s : BpfState) (e0 : event)
    (h1 : should_trace k s = true) (h2 : s.heap = some e0)
    (h3 : s.ringbuf_free = 0) :
    trace_path_common argIdx k ctx s =
      ({ s with heap := some (capturedEvent argIdx k ctx),
                dropped := (s.dropped + 1) % 2 ^ 64 }, 0) := by
  simp [trace_path_common, h1, h2, submit_event, bpf_ringbuf_output, h3, capturedEvent]

/-- Reading a string of content `bs` with `fuel` content bytes available
copies exactly the first `fuel` bytes of `bs` and one terminating NUL. -/
theorem read_str_go_strAt (mem : Nat → Option Nat) :
    ∀ (bs : List Nat) (addr n : Nat), strAt mem addr bs →
      read_str_go mem addr n = bs.take n ++ [0] := by
  intro bs
  induction bs with
  | nil =>
    intro addr n h
    cases n with
    | zero => simp [read_str_go]
    | succ m =>
      have h0 : mem addr = some 0 := by simpa using h.2
      simp [read_str_go, h0]
  | cons b bs ih =>
    intro addr n h
    have hb : mem addr = some b := by simpa using (h.1 0 (by simp)).1
    have hbne : ¬ b = 0 := by
      intro hb0
      exact (h.1 0 (by simp)).2 (by simp [hb0])
    cases n with
    | zero => simp [read_str_go]
    | succ m =>
      have htail : strAt mem (addr + 1) bs := by
        refine ⟨fun i hi => ?_, ?_⟩
        · have := h.1 (i + 1) (by simpa using Nat.succ_lt_succ hi)
          simpa [Nat.add_comm, Nat.add_left_comm, Nat.add_assoc] using this
        · have := h.2
          simpa [Nat.add_comm, Nat.add_left_comm, Nat.add_assoc] using this
      simp [read_str_go, hb, hbne, ih (addr + 1) m htail]

/-- Shape of any bounded string read, faulting pointers included: the bytes
written are some NUL-free prefix of what is readable at the pointer, of
length at most `fuel`, followed by exactly one NUL. -/
theorem read_str_go_shape (mem : Nat → Option Nat) :
    ∀ (n addr : Nat), ∃ cs, read_str_go mem addr n = cs ++ [0] ∧
      cs.length ≤ n ∧ (0 : Nat) ∉ cs ∧
      ∀ i < cs.length, mem (addr + i) = cs.get? i := by
  intro n
  induction n with
  | zero => intro addr; exact ⟨[], by simp [read_str_go]⟩
  | succ m ih =>
    intro addr
    cases hm : mem addr with
    | none => exact ⟨[], by simp [read_str_go, hm]⟩
    | some b =>
      by_cases hb : b = 0
      · exact ⟨[], by simp [read_str_go, hm, hb]⟩
      · obtain ⟨cs, hcs, hlen, hnul, hread⟩ := ih (addr + 1)
        refine ⟨b :: cs, ?_, by simpa using Nat.succ_le_succ hlen, ?_, ?_⟩
        · simp [read_str_go, hm, hb, hcs]
        · simp only [List.mem_cons, not_or]
          exact ⟨fun h0 => hb h0.symm, hnul⟩
        · intro i hi
          cases i with
          | zero => simpa using hm
          | succ j =>
            have := hread j (by simpa using Nat.lt_of_succ_lt_succ hi)
            simpa [Nat.add_comm, Nat.add_left_comm, Nat.add_assoc] using this

/-- Outcome of a burst of submissions: the first `ringbuf_free` records are
delivered whole, in order, and the drop counter grows by exactly the number
that did not fit (as long as the u64 counter does not wrap). -/
theorem submit_all_spec : ∀ (es : List event) (s : BpfState),
    s.dropped + es.length < 2 ^ 64 →
    (submit_all s es).dropped = s.dropped + (es.length - s.ringbuf_free) ∧
    (submit_all s es).ringbuf = s.ringbuf ++ es.take s.ringbuf_free := by
  intro es
  induction es with
  | nil => intro s _; simp [submit_all]
  | cons e es ih =>
    intro s h
    rw [show submit_all s (e :: es) = submit_all (submit_event s e) es from rfl]
    cases hf : s.ringbuf_free with
    | zero =>
      have hlen : s.dropped + (es.length + 1) < 2 ^ 64 := by
        simpa using h
      have hs : submit_event s e = { s with dropped := s.dropped + 1 } := by
        rw [submit_event, bpf_ringbuf_output]
        simp [hf]
        all_goals omega
      rw [hs]
      obtain ⟨hd, hr⟩ := ih { s with dropped := s.dropped + 1 }
        (by show s.dropped + 1 + es.length < 2 ^ 64; omega)
      refine ⟨?_, ?_⟩
      · rw [hd]; simp [hf]; omega
      · rw [hr]; simp [hf]
    | succ m =>
      have hlen : s.dropped + (es.length + 1) < 2 ^ 64 := by
        simpa using h
      have hs : submit_event s e =
          { s with ringbuf := s.ringbuf ++ [e], ringbuf_free := m } := by
        rw [submit_event, bpf_ringbuf_output]
        simp [hf]
      rw [hs]
      obtain ⟨hd, hr⟩ := ih { s with ringbuf := s.ringbuf ++ [e], ringbuf_free := m }
        (by show s.dropped + es.length < 2 ^ 64; omega)
      refine ⟨?_, ?_⟩
      · rw [hd]; simp [hf, Nat.succ_sub_succ]
      · rw [hr]; simp [hf]

/-- C1: a task whose cgroup id is not in the filter table (in particular,
with an empty table) triggers no transport record and leaves the whole map
state — scratch slot, drop counter and channel included — unchanged, for
every monitored handler. -/
theorem C1_unfiltered_silent : ∀ hp ∈ monitoredHandlers,
    ∀ (k : KernelCtx) (ctx : trace_event_raw_sys_enter) (s : BpfState),
    k.task_cgroup_id ∉ s.traced_cgroups → hp.1 k ctx s = (s, 0) := by
  intro hp hm k ctx s h
  rw [handler_eq_common hp hm]
  exact trace_path_common_reject _ _ _ _ (by simp [should_trace, h])

/-- Witness for C1: `trace_openat` under the empty filter table. -/
theorem C1_unfiltered_silent_w : trace_openat k100 ctx0 sEmpty = (sEmpty, 0) :=
  C1_unfiltered_silent (trace_openat, 1) (by simp [monitoredHandlers]) k100 ctx0 sEmpty
    (by decide)

/-- C2: a task whose cgroup id was inserted into the filter table, with
scratch available and the channel not full, produces exactly one record whose
`cgroup_id` is the inserted identifier and whose `pid` is the high 32 bits of
the combined pid/tgid value. -/
theorem C2_filtered_one_record : ∀ hp ∈ monitoredHandlers,
    ∀ (k : KernelCtx) (ctx : trace_event_raw_sys_enter) (s : BpfState) (cg : Nat),
    cg ∈ s.traced_cgroups → k.task_cgroup_id = cg → (∃ e0, s.heap = some e0) →
    0 < s.ringbuf_free → k.pid_tgid < 2 ^ 64 →
    ∃ e, (hp.1 k ctx s).1.ringbuf = s.ringbuf ++ [e] ∧
      e.cgroup_id = cg ∧ e.pid = k.pid_tgid >>> 32 := by
  intro hp hm k ctx s cg hcg hk hheap hfree hlt
  obtain ⟨e0, he0⟩ := hheap
  rw [handler_eq_common hp hm,
    trace_path_common_emit hp.2 k ctx s e0 (by simp [should_trace, hk, hcg]) he0 hfree]
  refine ⟨capturedEvent hp.2 k ctx, by simp, by simp [capturedEvent, hk], ?_⟩
  have hsh : k.pid_tgid >>> 32 < 2 ^ 32 := by
    rw [Nat.shiftRight_eq_div_pow]
    exact Nat.div_lt_of_lt_mul (by norm_num at hlt ⊢; omega)
  show k.pid_tgid >>> 32 % 2 ^ 32 = k.pid_tgid >>> 32
  exact Nat.mod_eq_of_lt hsh

/-- Witness for C2: `trace_openat` from traced cgroup 100. -/
theorem C2_filtered_one_record_w :
    ∃ e, (trace_openat k100 ctx0 sTraced).1.ringbuf = sTraced.ringbuf ++ [e] ∧
      e.cgroup_id = 100 ∧ e.pid = k100.pid_tgid >>> 32 :=
  C2_filtered_one_record (trace_openat, 1) (by simp [monitoredHandlers]) k100 ctx0 sTraced
    100 (by decide) (by decide) ⟨evDefault, rfl⟩ (by decide) (by decide)

/-- C6: when the filter check passed but the scratch-slot lookup fails, the
handler returns 0 with no side effect at all: nothing is submitted and the
drop counter is untouched. -/
theorem C6_no_scratch_no_effect : ∀ hp ∈ monitoredHandlers,
    ∀ (k : KernelCtx) (ctx : trace_event_raw_sys_enter) (s : BpfState),
    should_trace k s = true → s.heap = none → hp.1 k ctx s = (s, 0) := by
  intro hp hm k ctx s _ h
  rw [handler_eq_common hp hm]
  exact trace_path_common_noheap _ _ _ _ h

/-- Witness for C6: `trace_openat` with a failing scratch lookup. -/
theorem C6_no_scratch_no_effect_w : trace_openat k100 ctx0 sNoHeap = (sNoHeap, 0) :=
  C6_no_scratch_no_effect (trace_openat, 1) (by simp [monitoredHandlers]) k100 ctx0 sNoHeap
    (by decide) rfl

/-- C8: every monitored handler returns 0 to the kernel on every exit path —
filter miss, scratch unavailable, successful submission and failed
submission alike. -/
theorem C8_handlers_return_zero : ∀ hp ∈ monitoredHandlers,
    ∀ (k : KernelCtx) (ctx : trace_event_raw_sys_enter) (s : BpfState),
    (hp.1 k ctx s).2 = 0 := by
  intro hp hm k ctx s
  rw [handler_eq_common hp hm]
  by_cases h1 : should_trace k s = true
  · cases h2 : s.heap with
    | none => rw [trace_path_common_noheap _ _ _ _ h2]
    | some e0 =>
      cases hf : s.ringbuf_free with
      | zero => rw [trace_path_common_full _ _ _ _ e0 h1 h2 hf]
      | succ m => rw [trace_path_common_emit _ _ _ _ e0 h1 h2 (by omega)]
  · rw [trace_path_common_reject _ _ _ _ (by simpa using h1)]

/-- Witness for C8: `trace_openat` on the failed-submission path (saturated
channel) still returns 0. -/
theorem C8_handlers_return_zero_w : (trace_openat k100 ctx0 sFull).2 = 0 :=
  C8_handlers_return_zero (trace_openat, 1) (by simp [monitoredHandlers]) k100 ctx0 sFull

/-- C3: path capture — content of at most 255 bytes is captured verbatim
plus a terminating NUL, longer content is truncated to 255 bytes plus NUL;
the capture never writes more than the 256-byte capacity, and an arbitrary
(possibly faulting) pointer yields exactly the readable NUL-free prefix
followed by a NUL — truncation, never abort. -/
theorem C3_path_capture :
    (∀ (mem : Nat → Option Nat) (addr : Nat) (bs : List Nat), strAt mem addr bs →
      bpf_probe_read_user_str mem addr MAX_PATH_LEN = bs.take 255 ++ [0] ∧
      (bs.length ≤ 255 → bpf_probe_read_user_str mem addr MAX_PATH_LEN = bs ++ [0])) ∧
    (∀ (mem : Nat → Option Nat) (addr : Nat), ∃ cs,
      bpf_probe_read_user_str mem addr MAX_PATH_LEN = cs ++ [0] ∧
      (bpf_probe_read_user_str mem addr MAX_PATH_LEN).length ≤ MAX_PATH_LEN ∧
      (0 : Nat) ∉ cs ∧ ∀ i < cs.length, mem (addr + i) = cs.get? i) := by
  constructor
  · intro mem addr bs hs
    have h : bpf_probe_read_user_str mem addr MAX_PATH_LEN = bs.take 255 ++ [0] :=
      read_str_go_strAt mem bs addr 255 hs
    refine ⟨h, fun hle => ?_⟩
    rw [h, List.take_of_length_le hle]
  · intro mem addr
    obtain ⟨cs, hcs, hlen, hnul, hread⟩ := read_str_go_shape mem 255 addr
    have hcs' : bpf_probe_read_user_str mem addr MAX_PATH_LEN = cs ++ [0] := hcs
    refine ⟨cs, hcs', ?_, hnul, hread⟩
    rw [hcs']
    simp only [List.length_append, List.length_singleton, MAX_PATH_LEN]
    omega

/-- Witness for C3: the 4-byte path at address 0 of the concrete user memory
is captured verbatim with its NUL. -/
theorem C3_path_capture_w :
    bpf_probe_read_user_str k100.mem 0 MAX_PATH_LEN = [65, 66, 67, 68] ++ [0] :=
  (C3_path_capture.1 k100.mem 0 [65, 66, 67, 68] (by decide)).2 (by decide)

/-- C4: a failed submission bumps the drop counter by exactly one atomic add
of the u64 cell; across a burst of submissions the counter finally grows by
exactly the number of records that did not fit, the delivered records are
exactly the first ones that fit, appended whole and in order, and the counter
never decreases (absent u64 wraparound). -/
theorem C4_drop_counter :
    (∀ (s : BpfState) (e : event), s.ringbuf_free = 0 →
      submit_event s e = { s with dropped := (s.dropped + 1) % 2 ^ 64 }) ∧
    (∀ (s : BpfState) (es : List event), s.dropped + es.length < 2 ^ 64 →
      (submit_all s es).dropped = s.dropped + (es.length - s.ringbuf_free) ∧
      (submit_all s es).ringbuf = s.ringbuf ++ es.take s.ringbuf_free ∧
      s.dropped ≤ (submit_all s es).dropped) := by
  constructor
  · intro s e h
    have hout : bpf_ringbuf_output s e = (s, -1) := by
      rw [bpf_ringbuf_output, h]
      rfl
    rw [submit_event, hout]
    rfl
  · intro s es h
    obtain ⟨hd, hr⟩ := submit_all_spec es s h
    exact ⟨hd, hr, by rw [hd]; exact Nat.le_add_right _ _⟩

/-- Witness for C4: one drop on a saturated channel, and a 3-record burst
into a single free slot delivering one record and counting two drops. -/
theorem C4_drop_counter_w :
    (submit_event sFull evDefault = { sFull with dropped := (sFull.dropped + 1) % 2 ^ 64 }) ∧
    ((submit_all sOneSlot es3).dropped = sOneSlot.dropped + (es3.length - sOneSlot.ringbuf_free) ∧
     (submit_all sOneSlot es3).ringbuf = sOneSlot.ringbuf ++ es3.take sOneSlot.ringbuf_free ∧
     sOneSlot.dropped ≤ (submit_all sOneSlot es3).dropped) :=
  ⟨C4_drop_counter.1 sFull evDefault rfl, C4_drop_counter.2 sOneSlot es3 (by decide)⟩

/-- C5: no partial and no stale records — the channel contents and drop
counter produced by a handler are independent of whatever the reused scratch
slot held before, and the record appended on the successful path is exactly
the one whose four fields were captured from the current invocation. -/
theorem C5_no_stale_records : ∀ hp ∈ monitoredHandlers,
    ∀ (k : KernelCtx) (ctx : trace_event_raw_sys_enter) (s : BpfState) (e1 e2 : event),
    ((hp.1 k ctx { s with heap := some e1 }).1.ringbuf =
       (hp.1 k ctx { s with heap := some e2 }).1.ringbuf) ∧
    ((hp.1 k ctx { s with heap := some e1 }).1.dropped =
       (hp.1 k ctx { s with heap := some e2 }).1.dropped) ∧
    (should_trace k s = true → 0 < s.ringbuf_free →
      (hp.1 k ctx { s with heap := some e1 }).1.ringbuf =
        s.ringbuf ++ [capturedEvent hp.2 k ctx]) := by
  intro hp hm k ctx s e1 e2
  rw [handler_eq_common hp hm]
  have hst : ∀ e : event, should_trace k { s with heap := some e } = should_trace k s :=
    fun _ => rfl
  by_cases h1 : should_trace k s = true
  · by_cases hf : 0 < s.ringbuf_free
    · rw [trace_path_common_emit hp.2 k ctx _ e1 ((hst e1).trans h1) rfl hf,
        trace_path_common_emit hp.2 k ctx _ e2 ((hst e2).trans h1) rfl hf]
      exact ⟨rfl, rfl, fun _ _ => rfl⟩
    · have hf0 : s.ringbuf_free = 0 := by omega
      rw [trace_path_common_full hp.2 k ctx _ e1 ((hst e1).trans h1) rfl hf0,
        trace_path_common_full hp.2 k ctx _ e2 ((hst e2).trans h1) rfl hf0]
      exact ⟨rfl, rfl, fun _ hfree => absurd hfree hf⟩
  · have h1' : should_trace k s = false := by simpa using h1
    rw [trace_path_common_reject hp.2 k ctx _ ((hst e1).trans h1'),
      trace_path_common_reject hp.2 k ctx _ ((hst e2).trans h1')]
    exact ⟨rfl, rfl, fun hT _ => absurd hT (by simp [h1'])⟩

/-- Witness for C5: with stale content in the scratch slot, `trace_openat`
still emits exactly the freshly captured record. -/
theorem C5_no_stale_records_w :
    (trace_openat k100 ctx0 { sTraced with heap := some evStale }).1.ringbuf =
      sTraced.ringbuf ++ [capturedEvent 1 k100 ctx0] :=
  (C5_no_stale_records (trace_openat, 1) (by simp [monitoredHandlers]) k100 ctx0 sTraced
    evStale evDefault).2.2 (by decide) (by decide)

/-- C7: each directory-fd-relative handler reads the path from syscall
argument 1, the legacy execve handler from argument 0, and every emitted
`syscall_nr` equals the context's entry-point identifier, not a constant. -/
theorem C7_path_arg_positions :
    emitsPathFrom trace_openat 1 ∧ emitsPathFrom trace_openat2 1 ∧
    emitsPathFrom trace_execveat 1 ∧ emitsPathFrom trace_statx 1 ∧
    emitsPathFrom trace_newfstatat 1 ∧ emitsPathFrom trace_faccessat 1 ∧
    emitsPathFrom trace_faccessat2 1 ∧ emitsPathFrom trace_readlinkat 1 ∧
    emitsPathFrom trace_execve 0 := by
  have hgen : ∀ argIdx, emitsPathFrom (trace_path_common argIdx) argIdx := by
    intro argIdx k ctx s e0 h1 h2 h3
    rw [trace_path_common_emit argIdx k ctx s e0 h1 h2 h3]
    rfl
  exact ⟨hgen 1, hgen 1, hgen 1, hgen 1, hgen 1, hgen 1, hgen 1, hgen 1, hgen 0⟩

/-- Witness for C7: `trace_execve` reads the path from argument 0 of the
concrete context. -/
theorem C7_path_arg_positions_w :
    (trace_execve k100 ctx0 sTraced).1.ringbuf = sTraced.ringbuf ++
      [{ cgroup_id := k100.task_cgroup_id,
         pid := k100.pid_tgid >>> 32 % 2 ^ 32,
         syscall_nr := ctx0.id % 2 ^ 32,
         path := bpf_probe_read_user_str k100.mem (ctx0.args.getD 0 0) MAX_PATH_LEN }] :=
  C7_path_arg_positions.2.2.2.2.2.2.2.2 k100 ctx0 sTraced evDefault (by decide) rfl (by decide)

/-- C9: any record a handler adds to the channel carries a `cgroup_id` that
is present in the filter table at capture time — the filter decision and the
record field come from the same task cgroup association of the invocation. -/
theorem C9_records_are_filtered : ∀ hp ∈ monitoredHandlers,
    ∀ (k : KernelCtx) (ctx : trace_event_raw_sys_enter) (s : BpfState),
    ∀ e ∈ (hp.1 k ctx s).1.ringbuf, e ∈ s.ringbuf ∨ e.cgroup_id ∈ s.traced_cgroups := by
  intro hp hm k ctx s e he
  rw [handler_eq_common hp hm] at he
  by_cases h1 : should_trace k s = true
  · cases h2 : s.heap with
    | none =>
      rw [trace_path_common_noheap _ _ _ _ h2] at he
      exact Or.inl he
    | some e0 =>
      cases hf : s.ringbuf_free with
      | zero =>
        rw [trace_path_common_full _ _ _ _ e0 h1 h2 hf] at he
        exact Or.inl he
      | succ m =>
        rw [trace_path_common_emit _ _ _ _ e0 h1 h2 (by omega)] at he
        simp only [List.mem_append, List.mem_singleton] at he
        rcases he with he | rfl
        · exact Or.inl he
        · exact Or.inr ((should_trace_iff k s).mp h1)
  · rw [trace_path_common_reject _ _ _ _ (by simpa using h1)] at he
    exact Or.inl he

/-- Witness for C9: the one record `trace_openat` emits carries the traced
cgroup id 100. -/
theorem C9_records_are_filtered_w :
    capturedEvent 1 k100 ctx0 ∈ sTraced.ringbuf ∨
      (capturedEvent 1 k100 ctx0).cgroup_id ∈ sTraced.traced_cgroups :=
  C9_records_are_filtered (trace_openat, 1) (by simp [monitoredHandlers]) k100 ctx0 sTraced
    (capturedEvent 1 k100 ctx0) (by decide)

/-- C10: determinism — for a fixed task state, filter contents, syscall
context (user path bytes included) and channel free capacity, two invocations
of the same handler append the same records to the channel, change the drop
counter by the same amount and return the same value, whatever else the two
states hold. -/
theorem C10_deterministic : ∀ hp ∈ monitoredHandlers,
    ∀ (k : KernelCtx) (ctx : trace_event_raw_sys_enter) (s1 s2 : BpfState),
    s1.traced_cgroups = s2.traced_cgroups → s1.ringbuf_free = s2.ringbuf_free →
    s1.heap.isSome = s2.heap.isSome →
    s1.dropped + 1 < 2 ^ 64 → s2.dropped + 1 < 2 ^ 64 →
    ((hp.1 k ctx s1).1.ringbuf.drop s1.ringbuf.length =
       (hp.1 k ctx s2).1.ringbuf.drop s2.ringbuf.length) ∧
    ((hp.1 k ctx s1).1.dropped - s1.dropped = (hp.1 k ctx s2).1.dropped - s2.dropped) ∧
    ((hp.1 k ctx s1).2 = (hp.1 k ctx s2).2) := by
  intro hp hm k ctx s1 s2 htr hfr hhp hd1 hd2
  rw [handler_eq_common hp hm]
  have hst : should_trace k s1 = should_trace k s2 := by simp [should_trace, htr]
  by_cases h1 : should_trace k s1 = true
  · have h2 : should_trace k s2 = true := hst ▸ h1
    cases hh1 : s1.heap with
    | none =>
      have hh2 : s2.heap = none := by
        cases hq : s2.heap with
        | none => rfl
        | some x => rw [hh1, hq] at hhp; simp at hhp
      rw [trace_path_common_noheap hp.2 k ctx s1 hh1,
        trace_path_common_noheap hp.2 k ctx s2 hh2]
      exact ⟨by simp, by simp, rfl⟩
    | some e1 =>
      obtain ⟨e2, hh2⟩ : ∃ e2, s2.heap = some e2 := by
        cases hq : s2.heap with
        | none => rw [hh1, hq] at hhp; simp at hhp
        | some x => exact ⟨x, rfl⟩
      cases hf1 : s1.ringbuf_free with
      | zero =>
        have hf2 : s2.ringbuf_free = 0 := by omega
        rw [trace_path_common_full hp.2 k ctx s1 e1 h1 hh1 hf1,
          trace_path_common_full hp.2 k ctx s2 e2 h2 hh2 hf2]
        refine ⟨by simp, ?_, rfl⟩
        show (s1.dropped + 1) % 2 ^ 64 - s1.dropped = (s2.dropped + 1) % 2 ^ 64 - s2.dropped
        rw [Nat.mod_eq_of_lt hd1, Nat.mod_eq_of_lt hd2]
        omega
      | succ m =>
        have hg1 : 0 < s1.ringbuf_free := by omega
        have hg2 : 0 < s2.ringbuf_free := by omega
        rw [trace_path_common_emit hp.2 k ctx s1 e1 h1 hh1 hg1,
          trace_path_common_emit hp.2 k ctx s2 e2 h2 hh2 hg2]
        exact ⟨by simp, by simp, rfl⟩
  · have h1' : should_trace k s1 = false := by simpa using h1
    have h2' : should_trace k s2 = false := hst ▸ h1'
    rw [trace_path_common_reject hp.2 k ctx s1 h1',
      trace_path_common_reject hp.2 k ctx s2 h2']
    exact ⟨by simp, by simp, rfl⟩

/-- Witness for C10: `trace_openat` behaves identically on `sTraced` and
`sOther`. -/
theorem C10_deterministic_w :
    ((trace_openat k100 ctx0 sTraced).1.ringbuf.drop sTraced.ringbuf.length =
       (trace_openat k100 ctx0 sOther).1.ringbuf.drop sOther.ringbuf.length) ∧
    ((trace_openat k100 ctx0 sTraced).1.dropped - sTraced.dropped =
       (trace_openat k100 ctx0 sOther).1.dropped - sOther.dropped) ∧
    ((trace_openat k100 ctx0 sTraced).2 = (trace_openat k100 ctx0 sOther).2) :=
  C10_deterministic (trace_openat, 1) (by simp [monitoredHandlers]) k100 ctx0 sTraced sOther
    rfl rfl rfl (by decide) (by decide)

end Snoop
